import Mathlib

/-
Shallow embedding of the joke-generator core of src/Python-Test/3/Python01.py:
Config (Settings), JokeManager.get_joke (ContentSource.next), the jokes_history
list (HistoryStore), AudioManager.text_to_speech / play_audio (AudioPipeline),
JokeGeneratorApp.run_batch, JokeGeneratorApp.cleanup and load_config.
External collaborators (pyjokes, gTTS, the OS audio player, the clock) are
modelled as explicit parameters; a collaborator call that may raise is an
Except value, and import-time availability flags are Bool parameters.
-/

namespace JokeGen

/-- JSON values as produced and consumed by the json module: the config file
and the history file are JSON, and the dynamically typed attribute values of
the Config dataclass after load_config are arbitrary JSON values. -/
inductive Json where
  | null
  | bool (b : Bool)
  | num (n : Int)
  | str (s : String)
  | arr (elems : List Json)
  | obj (fields : List (String × Json))
deriving Repr

/-- One entry of jokes_history / one return value of get_joke. The Python
code builds a dict with keys text, category, timestamp, and, on the success
path only, id; the field id is an Option to record whether the dict carries
the key at all. -/
structure JokeRecord where
  text : String
  category : String
  timestamp : String
  id : Option Nat
deriving Repr, DecidableEq

/-- Default categories list from Config.__post_init__. -/
def defaultCategories : List String := ["neutral", "chuck", "all"]

/-- Python truthiness and membership test on line 216:
if category and category in self.config.categories. -/
def useCategory (categories : List String) (category : Option String) : Bool :=
  match category with
  | none => false
  | some s => s ≠ "" && categories.contains s

/-- Python expression category or "general" on line 223. -/
def categoryOrGeneral (category : Option String) : String :=
  match category with
  | none => "general"
  | some s => if s = "" then "general" else s

/-- The argument passed to pyjokes.get_joke: the category keyword when the
guard on line 216 holds, otherwise the no-argument default call. -/
def fetchArg (categories : List String) (category : Option String) :
    Option String :=
  if useCategory categories category then category else none

/-- JokeManager.get_joke (lines 206-237). Parameters model the externals:
available is PYJOKES_AVAILABLE, fetch is pyjokes.get_joke (Except.error is a
raised exception), now is datetime.now().isoformat(). Returns the record the
call returns together with the jokes_history list after the call; only the
success path appends to jokes_history. -/
def get_joke (available : Bool) (categories : List String)
    (history : List JokeRecord) (category : Option String) (now : String)
    (fetch : Option String → Except Unit String) :
    JokeRecord × List JokeRecord :=
  if !available then
    ({ text := "Why don't scientists trust atoms? Because they make up everything!",
       category := "fallback", timestamp := now, id := none }, history)
  else
    match fetch (fetchArg categories category) with
    | Except.ok joke_text =>
        let joke_data : JokeRecord :=
          { text := joke_text, category := categoryOrGeneral category,
            timestamp := now, id := some (history.length + 1) }
        (joke_data, history ++ [joke_data])
    | Except.error _ =>
        ({ text := "Error getting joke. Please try again.",
           category := "error", timestamp := now, id := none }, history)

/-- The per-call inputs of one get_joke call: the category argument, the
clock reading, and the behaviour of the pyjokes collaborator on that call. -/
structure CallInput where
  category : Option String
  now : String
  fetch : Option String → Except Unit String

/-- A sequence of get_joke calls on the same JokeManager: returns the list
of returned records and the final jokes_history. -/
def runCalls (available : Bool) (categories : List String)
    (history : List JokeRecord) (calls : List CallInput) :
    List JokeRecord × List JokeRecord :=
  match calls with
  | [] => ([], history)
  | c :: rest =>
      let step := get_joke available categories history c.category c.now c.fetch
      let restRun := runCalls available categories step.2 rest
      (step.1 :: restRun.1, restRun.2)

/-- JokeGeneratorApp.__init__ (line 273): self.running = False. The flag is
set to True only by run_interactive and run_daemon; run_batch never sets it,
and main constructs the app and calls run_batch directly. -/
def initialRunning : Bool := false

/-- JokeGeneratorApp.run_batch (lines 377-395). The running flag is only
mutated by the signal handler, so within an undisturbed run it is constant.
calls supplies the per-iteration collaborator behaviour; its length is the
resolved count (args.count or config.joke_count). tts models the result of
text_to_speech on the joke text. Returns the final jokes_history and the
number of play_audio invocations. -/
def run_batch (running audio_enabled available : Bool)
    (categories : List String) (history : List JokeRecord)
    (calls : List CallInput) (tts : String → Option String) :
    List JokeRecord × Nat :=
  match calls with
  | [] => (history, 0)
  | c :: rest =>
      if !running then (history, 0)
      else
        let step := get_joke available categories history c.category c.now c.fetch
        let playInc : Nat :=
          if audio_enabled then
            match tts step.1.text with
            | some _ => 1
            | none => 0
          else 0
        let restRun := run_batch running audio_enabled available categories
          step.2 rest tts
        (restRun.1, playInc + restRun.2)

/-- Observable state of the Supervisor's shutdown resources: the in-memory
history, the persisted file content, how many file writes happened, the
worker stop event, and how many stop_background_playback calls happened. -/
structure SupervisorState where
  history : List JokeRecord
  savedFile : Option (List JokeRecord)
  saveWrites : Nat
  stopSignaled : Bool
  stopCalls : Nat
deriving Repr, DecidableEq

/-- JokeManager.save_jokes_history (lines 239-252) on the success path:
one unconditional write of the full history. -/
def save_jokes_history (s : SupervisorState) : SupervisorState :=
  { s with savedFile := some s.history, saveWrites := s.saveWrites + 1 }

/-- AudioManager.stop_background_playback (lines 179-183): sets the stop
event and joins the worker; counted as one worker-stop call. -/
def stop_background_playback (s : SupervisorState) : SupervisorState :=
  { s with stopSignaled := true, stopCalls := s.stopCalls + 1 }

/-- JokeGeneratorApp.cleanup (lines 287-291): unconditionally stops the
playback worker and saves the history, with no already-ran guard. -/
def cleanup (s : SupervisorState) : SupervisorState :=
  save_jokes_history (stop_background_playback s)

/-- OS family as reported by platform.system() in play_audio. -/
inductive OSFamily where
  | windows
  | darwin
  | linux
  | other (name : String)
deriving Repr, DecidableEq

/-- AudioManager.play_audio (lines 139-162). fileExists is
os.path.exists(filepath); playerRaises tells whether the external player
call on the taken branch (os.startfile, afplay, mpg123) raises, in which
case the surrounding try/except returns False. The unsupported branch
returns False without any player call. A raised exception never escapes:
the function is total and returns a Bool. -/
def play_audio (fileExists : Bool) (os : OSFamily) (playerRaises : Bool) :
    Bool :=
  if !fileExists then false
  else
    match os with
    | OSFamily.windows => if playerRaises then false else true
    | OSFamily.darwin => if playerRaises then false else true
    | OSFamily.linux => if playerRaises then false else true
    | OSFamily.other _ => false

/-- AudioManager.text_to_speech (lines 115-137). gtts_available is
GTTS_AVAILABLE; ttsRaises tells whether anything in the try block (gTTS
construction or tts.save) raises, in which case the except block returns
None. now is the strftime timestamp used for the default filename. -/
def text_to_speech (gtts_available ttsRaises : Bool)
    (filename : Option String) (now output_dir audio_format : String)
    (text : String) : Option String :=
  if !gtts_available then none
  else
    let fname :=
      match filename with
      | some f => f
      | none => "joke_" ++ now ++ "." ++ audio_format
    let filepath := output_dir ++ "/" ++ fname
    if ttsRaises then none else some filepath

/-- Lookup of a key in a JSON object's field list (first occurrence). -/
def jlookup (fields : List (String × Json)) (k : String) : Option Json :=
  match fields with
  | [] => none
  | kv :: rest => if kv.1 = k then some kv.2 else jlookup rest k

/-- The runtime attribute map of the Config dataclass: Python attributes are
dynamically typed, so after load_config a field may hold a value of any JSON
type. Defaults from the dataclass declaration (lines 48-66); delay_seconds
3.0 is represented by the JSON number 3. -/
def defaultConfigAttrs : List (String × Json) :=
  [("joke_count", Json.num 10),
   ("delay_seconds", Json.num 3),
   ("language", Json.str "en"),
   ("audio_enabled", Json.bool true),
   ("save_audio", Json.bool true),
   ("audio_format", Json.str "mp3"),
   ("log_level", Json.str "INFO"),
   ("max_file_size_mb", Json.num 100),
   ("backup_count", Json.num 5),
   ("categories", Json.arr [Json.str "neutral", Json.str "chuck", Json.str "all"]),
   ("output_dir", Json.str "jokes_output"),
   ("config_file", Json.str "joke_config.json")]

/-- hasattr(self.config, key): the key names an existing attribute. -/
def hasattr (attrs : List (String × Json)) (k : String) : Bool :=
  match attrs with
  | [] => false
  | kv :: rest => if kv.1 = k then true else hasattr rest k

/-- setattr(self.config, key, value): overwrite the attribute, keeping the
attribute set and its order unchanged. -/
def setattr (attrs : List (String × Json)) (k : String) (v : Json) :
    List (String × Json) :=
  attrs.map (fun kv => if kv.1 = k then (k, v) else kv)

/-- JokeGeneratorApp.load_config (lines 293-306), inner loop: for each
key-value pair of the parsed file, setattr when hasattr holds, else skip.
No type check of the value is performed anywhere. -/
def load_config (attrs : List (String × Json))
    (config_data : List (String × Json)) : List (String × Json) :=
  match config_data with
  | [] => attrs
  | kv :: rest =>
      load_config (if hasattr attrs kv.1 then setattr attrs kv.1 kv.2 else attrs)
        rest

/-- The JSON object json.dump writes for one history record: the dict built
on the success path has keys text, category, timestamp, id in that order
(lines 221-226); the dicts of the fallback and error paths have no id key. -/
def recordToJson (r : JokeRecord) : Json :=
  Json.obj
    ([("text", Json.str r.text), ("category", Json.str r.category),
      ("timestamp", Json.str r.timestamp)] ++
      (match r.id with
       | some n => [("id", Json.num (Int.ofNat n))]
       | none => []))

/-- Reading one record back from its JSON object: the identification of a
history dict with a JokeRecord (keys text, category, timestamp, optional
natural id). Objects of any other shape are not history records. -/
def recordFromJson (j : Json) : Option JokeRecord :=
  match j with
  | Json.obj fields =>
      match jlookup fields "text", jlookup fields "category",
          jlookup fields "timestamp" with
      | some (Json.str t), some (Json.str c), some (Json.str ts) =>
          match jlookup fields "id" with
          | some (Json.num (Int.ofNat n)) =>
              some { text := t, category := c, timestamp := ts, id := some n }
          | none => some { text := t, category := c, timestamp := ts, id := none }
          | some _ => none
      | _, _, _ => none
  | _ => none

/-- Element-wise record parsing of a JSON array body. -/
def recordsFromJson (l : List Json) : Option (List JokeRecord) :=
  match l with
  | [] => some []
  | j :: rest =>
      match recordFromJson j, recordsFromJson rest with
      | some r, some rs => some (r :: rs)
      | _, _ => none

/-- JokeManager.save_jokes_history's payload (line 247): json.dump of the
full jokes_history as one JSON array, overwriting the file. -/
def saveHistoryJson (history : List JokeRecord) : Json :=
  Json.arr (history.map recordToJson)

/-- JokeManager.load_jokes_history's payload (line 260): json.load of the
file back into the in-memory sequence. -/
def loadHistoryJson (file : Json) : Option (List JokeRecord) :=
  match file with
  | Json.arr elems => recordsFromJson elems
  | _ => none

/-- C1: the claim says the batch loop with count N and audio disabled appends
exactly N records; but __init__ sets running to False, run_batch never sets
it to True, and the loop body starts with `if not self.running: break`, so a
batch run from main performs zero iterations: the history is unchanged and
play_audio is never invoked, for every count and every collaborator. -/
theorem run_batch_zero_iterations (available : Bool)
    (categories : List String) (history : List JokeRecord)
    (calls : List CallInput) (tts : String → Option String) :
    run_batch initialRunning false available categories history calls tts =
      (history, 0) := by
  cases calls <;> simp [run_batch, initialRunning]

/-- C4 counterexample: invoking cleanup twice from a fresh state performs two
history writes and two worker-stop calls, not the exactly-one of each that
the claim requires of an idempotent shutdown. -/
theorem cleanup_twice_cex :
    ((cleanup (cleanup ⟨[], none, 0, false, 0⟩)).saveWrites = 2 ∧
      (cleanup (cleanup ⟨[], none, 0, false, 0⟩)).stopCalls = 2) ∧
    ¬ ((cleanup (cleanup ⟨[], none, 0, false, 0⟩)).saveWrites = 1 ∧
      (cleanup (cleanup ⟨[], none, 0, false, 0⟩)).stopCalls = 1) := by
  refine ⟨⟨rfl, rfl⟩, ?_⟩
  intro h
  exact absurd h.1 (by decide)

/-- C4 amended: cleanup is unguarded, so each invocation repeats the save and
the stop call; two invocations perform exactly two writes and two stop calls,
though the persisted content and the stop flag end the same as after one. -/
theorem cleanup_twice_effects (s : SupervisorState) :
    cleanup (cleanup s) =
      { history := s.history, savedFile := some s.history,
        saveWrites := s.saveWrites + 2, stopSignaled := true,
        stopCalls := s.stopCalls + 2 } := rfl

/-- C2 counterexample: three get_joke calls with the collaborator always
raising leave the history empty — the error records are returned (all with
category "error") but none is appended, refuting the claim that every call
appends its record and that 3 failing calls yield 3 stored error records. -/
theorem get_joke_error_never_appended_cex :
    (runCalls true defaultCategories []
      [⟨none, "t1", fun _ => Except.error ()⟩,
       ⟨none, "t2", fun _ => Except.error ()⟩,
       ⟨none, "t3", fun _ => Except.error ()⟩]).2 = [] ∧
    (runCalls true defaultCategories []
      [⟨none, "t1", fun _ => Except.error ()⟩,
       ⟨none, "t2", fun _ => Except.error ()⟩,
       ⟨none, "t3", fun _ => Except.error ()⟩]).1.map
        (fun r => r.category) = ["error", "error", "error"] := ⟨rfl, rfl⟩

/-- C2 amended: get_joke appends the returned record to jokes_history only
on the success path; when the collaborator is unavailable or raises, the
fallback or error record is returned but the history is left unchanged. -/
theorem get_joke_append_iff_success (available : Bool)
    (categories : List String) (history : List JokeRecord)
    (category : Option String) (now : String)
    (fetch : Option String → Except Unit String) :
    (available = false →
      (get_joke available categories history category now fetch).2 =
        history) ∧
    (∀ e, fetch (fetchArg categories category) = Except.error e →
      (get_joke available categories history category now fetch).2 =
        history) ∧
    (∀ t, available = true →
      fetch (fetchArg categories category) = Except.ok t →
      (get_joke available categories history category now fetch).2 =
        history ++
          [(get_joke available categories history category now fetch).1]) := by
  refine ⟨?_, ?_, ?_⟩
  · intro ha; subst ha; rfl
  · intro e he
    cases available
    · rfl
    · simp [get_joke, he]
  · intro t ha hok
    subst ha
    simp [get_joke, hok]

/-- Witness for the amended C2 theorem at a concrete successful call. -/
theorem get_joke_append_iff_success_witness :
    (get_joke true defaultCategories [] none "n"
        (fun _ => Except.ok "J")).2 =
      [] ++ [(get_joke true defaultCategories [] none "n"
        (fun _ => Except.ok "J")).1] :=
  (get_joke_append_iff_success true defaultCategories [] none "n"
    (fun _ => Except.ok "J")).2.2 "J" rfl rfl

/-- C7: play_audio returns false when the file does not exist (on every OS
branch), false on any OS family other than the three supported ones without
any player call, and false whenever the invoked player raises; being a total
Bool-valued function, it never propagates an exception to the caller. -/
theorem play_audio_false_on_failure (os : OSFamily)
    (fileExists playerRaises : Bool) (s : String) :
    play_audio false os playerRaises = false ∧
    play_audio fileExists (OSFamily.other s) playerRaises = false ∧
    play_audio fileExists os true = false := by
  cases os <;> cases fileExists <;> cases playerRaises <;>
    simp [play_audio]

/-- C8: text_to_speech returns None rather than raising when the gTTS
collaborator is unavailable, and also returns None when the collaborator is
present but raises during synthesis. -/
theorem text_to_speech_none_on_failure (gtts_available ttsRaises : Bool)
    (filename : Option String) (now output_dir audio_format text : String) :
    text_to_speech false ttsRaises filename now output_dir audio_format text
        = none ∧
    text_to_speech gtts_available true filename now output_dir audio_format
        text = none := by
  cases gtts_available <;> cases filename <;> simp [text_to_speech]

/-- One-step unfolding of setattr on a cons cell. -/
theorem setattr_cons (kv : String × Json) (rest : List (String × Json))
    (k : String) (v : Json) :
    setattr (kv :: rest) k v =
      (if kv.1 = k then (k, v) else kv) :: setattr rest k v := rfl

/-- setattr leaves the attribute-name set unchanged. -/
theorem hasattr_setattr (attrs : List (String × Json)) (k k' : String)
    (v : Json) : hasattr (setattr attrs k v) k' = hasattr attrs k' := by
  induction attrs with
  | nil => rfl
  | cons kv rest ih =>
      by_cases h : kv.1 = k
      · simp [setattr, hasattr, h] at ih ⊢
        by_cases h2 : k = k'
        · simp [h2]
        · simp [h2, ih]
      · simp [setattr, hasattr, h] at ih ⊢
        by_cases h2 : kv.1 = k'
        · simp [h2]
        · simp [h2, ih]

/-- Looking up the key just set by setattr yields the new value, when the
attribute exists. -/
theorem jlookup_setattr_self (attrs : List (String × Json)) (k : String)
    (v : Json) (h : hasattr attrs k = true) :
    jlookup (setattr attrs k v) k = some v := by
  induction attrs with
  | nil => simp [hasattr] at h
  | cons kv rest ih =>
      rw [setattr_cons]
      by_cases hk : kv.1 = k
      · simp [jlookup, hk]
      · simp [hasattr, hk] at h
        simp [jlookup, hk, ih h]

/-- Looking up a different key is unaffected by setattr. -/
theorem jlookup_setattr_ne (attrs : List (String × Json)) (k k' : String)
    (v : Json) (h : k' ≠ k) :
    jlookup (setattr attrs k v) k' = jlookup attrs k' := by
  induction attrs with
  | nil => rfl
  | cons kv rest ih =>
      rw [setattr_cons]
      by_cases hk : kv.1 = k
      · have hkk : ¬ (k = k') := fun he => h he.symm
        simp [jlookup, hk, hkk, ih]
      · simp [jlookup, hk, ih]

/-- A key that is not an attribute looks up to none. -/
theorem jlookup_of_not_hasattr (attrs : List (String × Json)) (k : String)
    (h : hasattr attrs k = false) : jlookup attrs k = none := by
  induction attrs with
  | nil => rfl
  | cons kv rest ih =>
      by_cases hk : kv.1 = k
      · simp [hasattr, hk] at h
      · simp [hasattr, hk] at h
        simp [jlookup, hk, ih h]

/-- C5 counterexample: loading a file with the valid override language="fr"
and the type-incompatible joke_count="oops" applies BOTH: the integer field
joke_count ends up holding the string "oops" instead of keeping its default
10, because load_config does setattr on every known key with no type check. -/
theorem load_config_no_type_check_cex :
    (jlookup (load_config defaultConfigAttrs
        [("language", Json.str "fr"), ("joke_count", Json.str "oops")])
      "joke_count" = some (Json.str "oops") ∧
     jlookup (load_config defaultConfigAttrs
        [("language", Json.str "fr"), ("joke_count", Json.str "oops")])
      "language" = some (Json.str "fr")) ∧
    ¬ (jlookup (load_config defaultConfigAttrs
        [("language", Json.str "fr"), ("joke_count", Json.str "oops")])
      "joke_count" = some (Json.num 10)) := by
  refine ⟨⟨rfl, rfl⟩, ?_⟩
  intro h
  rw [show jlookup (load_config defaultConfigAttrs
    [("language", Json.str "fr"), ("joke_count", Json.str "oops")])
    "joke_count" = some (Json.str "oops") from rfl] at h
  exact Json.noConfusion (Option.some.inj h)

/-- C5 amended: load_config applies every known key of the file regardless
of the value's type (no type compatibility check exists), and ignores only
unknown keys; fields not mentioned in the file keep their defaults. -/
theorem load_config_applies_known_keys (attrs : List (String × Json))
    (k1 ku k2 : String) (v1 vu v2 : Json)
    (h1 : hasattr attrs k1 = true) (h2 : hasattr attrs k2 = true)
    (hu : hasattr attrs ku = false) (hne : k1 ≠ k2) :
    jlookup (load_config attrs [(k1, v1), (ku, vu), (k2, v2)]) k1 =
        some v1 ∧
    jlookup (load_config attrs [(k1, v1), (ku, vu), (k2, v2)]) k2 =
        some v2 ∧
    jlookup (load_config attrs [(k1, v1), (ku, vu), (k2, v2)]) ku = none := by
  have hload : load_config attrs [(k1, v1), (ku, vu), (k2, v2)] =
      setattr (setattr attrs k1 v1) k2 v2 := by
    simp [load_config, h1, hasattr_setattr, hu, h2]
  rw [hload]
  have hu1 : ku ≠ k1 := fun he => by rw [he] at hu; rw [h1] at hu; cases hu
  have hu2 : ku ≠ k2 := fun he => by rw [he] at hu; rw [h2] at hu; cases hu
  refine ⟨?_, ?_, ?_⟩
  · rw [jlookup_setattr_ne _ _ _ _ hne]
    exact jlookup_setattr_self attrs k1 v1 h1
  · exact jlookup_setattr_self _ k2 v2 (by rw [hasattr_setattr]; exact h2)
  · rw [jlookup_setattr_ne _ _ _ _ hu2, jlookup_setattr_ne _ _ _ _ hu1]
    exact jlookup_of_not_hasattr attrs ku hu

/-- Witness for the amended C5 theorem on the default Config attributes with
a valid language override, an unknown key, and a type-incompatible
joke_count value. -/
theorem load_config_applies_known_keys_witness :
    jlookup (load_config defaultConfigAttrs
      [("language", Json.str "fr"), ("mystery_key", Json.num 1),
       ("joke_count", Json.str "oops")]) "language" =
        some (Json.str "fr") ∧
    jlookup (load_config defaultConfigAttrs
      [("language", Json.str "fr"), ("mystery_key", Json.num 1),
       ("joke_count", Json.str "oops")]) "joke_count" =
        some (Json.str "oops") ∧
    jlookup (load_config defaultConfigAttrs
      [("language", Json.str "fr"), ("mystery_key", Json.num 1),
       ("joke_count", Json.str "oops")]) "mystery_key" = none :=
  load_config_applies_known_keys defaultConfigAttrs "language" "mystery_key"
    "joke_count" (Json.str "fr") (Json.num 1) (Json.str "oops") rfl rfl rfl
    (by decide)

/-- C10: the records returned on the collaborator-unavailable path and on
the collaborator-raised path carry no id field at all, while a success-path
record carries id equal to the new history length. -/
theorem get_joke_no_id_on_fallback (categories : List String)
    (history : List JokeRecord) (category : Option String) (now t : String)
    (fetch : Option String → Except Unit String) :
    (get_joke false categories history category now fetch).1.id = none ∧
    (get_joke true categories history category now
        (fun _ => Except.error ())).1.id = none ∧
    (get_joke true categories history category now
        (fun _ => Except.ok t)).1.id = some (history.length + 1) := by
  refine ⟨rfl, rfl, ?_⟩
  simp [get_joke]

/-- C9: a non-empty category string outside Settings.categories fails the
guard on line 216, so the collaborator is called with its default category,
yet the Python expression category or "general" evaluates to the supplied
string, which becomes the category of the returned and stored record. -/
theorem get_joke_unknown_category (categories : List String)
    (history : List JokeRecord) (c now t : String)
    (fetch : Option String → Except Unit String)
    (hne : c ≠ "") (hnotin : categories.contains c = false)
    (hfetch : fetch none = Except.ok t) :
    get_joke true categories history (some c) now fetch =
      ({ text := t, category := c, timestamp := now,
         id := some (history.length + 1) },
       history ++
         [{ text := t, category := c, timestamp := now,
            id := some (history.length + 1) }]) := by
  have hnm : c ∉ categories := by simpa using hnotin
  have harg : fetchArg categories (some c) = none := by
    simp [fetchArg, useCategory, hnm]
  simp [get_joke, harg, hfetch, categoryOrGeneral, hne]

/-- Witness for C9 at a concrete unknown category. -/
theorem get_joke_unknown_category_witness :
    get_joke true defaultCategories [] (some "dadjoke") "n"
        (fun _ => Except.ok "J") =
      ({ text := "J", category := "dadjoke", timestamp := "n",
         id := some 1 },
       [{ text := "J", category := "dadjoke", timestamp := "n",
          id := some 1 }]) :=
  get_joke_unknown_category defaultCategories [] "dadjoke" "n" "J"
    (fun _ => Except.ok "J") (by decide) (by decide) rfl

/-- C3: across a run of sequential calls in which the collaborator always
succeeds, the i-th returned record carries id history-length-before + 1 + i,
i.e. ids L+1, L+2, ..., L+N with no gaps or duplicates, and each id equals
the history length immediately after its call (the final length is L+N). -/
theorem get_joke_sequence_ids (categories : List String)
    (calls : List CallInput) (history : List JokeRecord)
    (hok : ∀ c ∈ calls, ∀ arg, ∃ t, c.fetch arg = Except.ok t) :
    ((runCalls true categories history calls).1.map (fun r => r.id) =
      (List.range calls.length).map
        (fun i => some (history.length + 1 + i))) ∧
    (runCalls true categories history calls).2.length =
      history.length + calls.length := by
  induction calls generalizing history with
  | nil => simp [runCalls]
  | cons c rest ih =>
      obtain ⟨t, ht⟩ := hok c (by simp) (fetchArg categories c.category)
      have hrest : ∀ cc ∈ rest, ∀ arg, ∃ tt, cc.fetch arg = Except.ok tt :=
        fun cc hcc arg => hok cc (by simp [hcc]) arg
      have hstep : get_joke true categories history c.category c.now c.fetch =
          ({ text := t, category := categoryOrGeneral c.category,
             timestamp := c.now, id := some (history.length + 1) },
           history ++
             [{ text := t, category := categoryOrGeneral c.category,
                timestamp := c.now, id := some (history.length + 1) }]) := by
        simp [get_joke, ht]
      obtain ⟨ih1, ih2⟩ := ih
        (history ++
          [{ text := t, category := categoryOrGeneral c.category,
             timestamp := c.now, id := some (history.length + 1) }]) hrest
      constructor
      · simp only [runCalls, hstep, List.map_cons, List.length_cons,
          List.range_succ_eq_map, List.map_map]
        rw [ih1]
        refine List.cons_eq_cons.mpr ⟨by simp, ?_⟩
        apply List.map_congr_left
        intro i _
        simp only [Function.comp_apply, List.length_append,
          List.length_cons, List.length_nil]
        congr 1
        omega
      · simp only [runCalls, hstep, List.length_cons]
        rw [ih2]
        simp only [List.length_append, List.length_cons, List.length_nil]
        omega

/-- Witness for C3: two successful calls on a history of length 1 return
records with ids 2 and 3 and leave a history of length 3. -/
theorem get_joke_sequence_ids_witness :
    ((runCalls true defaultCategories
        [({ text := "h", category := "x", timestamp := "t0",
            id := some 1 } : JokeRecord)]
        [⟨none, "t1", fun _ => Except.ok "a"⟩,
         ⟨none, "t2", fun _ => Except.ok "b"⟩]).1.map (fun r => r.id) =
      (List.range 2).map (fun i => some (1 + 1 + i))) ∧
    (runCalls true defaultCategories
        [({ text := "h", category := "x", timestamp := "t0",
            id := some 1 } : JokeRecord)]
        [⟨none, "t1", fun _ => Except.ok "a"⟩,
         ⟨none, "t2", fun _ => Except.ok "b"⟩]).2.length = 1 + 2 :=
  get_joke_sequence_ids defaultCategories
    [⟨none, "t1", fun _ => Except.ok "a"⟩,
     ⟨none, "t2", fun _ => Except.ok "b"⟩]
    [({ text := "h", category := "x", timestamp := "t0",
        id := some 1 } : JokeRecord)]
    (by
      intro cc hcc arg
      rcases List.mem_cons.mp hcc with h1 | h2
      · exact ⟨"a", by rw [h1]⟩
      · rcases List.mem_cons.mp h2 with h3 | h4
        · exact ⟨"b", by rw [h3]⟩
        · cases h4)

/-- One saved record parses back to itself. -/
theorem recordFromJson_recordToJson (r : JokeRecord) :
    recordFromJson (recordToJson r) = some r := by
  cases r with
  | mk t c ts id => cases id <;> rfl

/-- A saved record list parses back element-wise to itself. -/
theorem recordsFromJson_map (l : List JokeRecord) :
    recordsFromJson (l.map recordToJson) = some l := by
  induction l with
  | nil => rfl
  | cons r rest ih =>
      simp [recordsFromJson, recordFromJson_recordToJson, ih]

/-- C6: save followed by load round-trips the history: the parsed sequence
equals the pre-save one in every field and in order, for histories of any
length (0, 1, N). -/
theorem history_roundtrip (history : List JokeRecord) :
    loadHistoryJson (saveHistoryJson history) = some history := by
  simp [loadHistoryJson, saveHistoryJson, recordsFromJson_map]

end JokeGen
